import Mathlib

/-!
Verification of the element-identifier cache and the HTTP endpoints built on it,
from the kit-automation-sample repository.

The embedding models:
* `utils/element_cache.py` — class `ElementCache` with `add_element`, `get_map`,
  `reset_map`, `get_cached_element`;
* `endpoints/query.py` — `find_element`, `find_elements`, `widget_properties`;
* `endpoints/keyboard.py` — `send_keys_to_element`;
* `endpoints/widget.py` — `reset_widget_cache`.

A UI element reference (`WidgetRef` / `WindowRef` / `OmniElement` in Python) is
modelled by its data relevant to the cache logic: whether the Python value has
type `WindowRef`, its `path` attribute, its `realpath` attribute (derived from
the underlying widget), and the remaining host-derived widget attributes
(`hostProps`, an opaque payload standing for the values `get_properties` reads
from the live widget).  `OmniElement.__init__` re-wraps a reference around the
same underlying widget and the same `path`
(`super().__init__(element.widget, element.path)`), so the wrap keeps `path`
and all widget-derived data and only changes the Python type.

The Python `dict` `element_map` is modelled as an insertion-ordered association
list: `d[k] = v` overwrites in place when `k` is present and appends otherwise,
and iteration (`items()`) follows this order.  `str(uuid.uuid4())` is modelled
by passing the freshly generated identifier as an explicit argument.
-/

namespace KitAutomation

/-- A UI element reference as seen by the cache logic. -/
structure UIElement where
  isWindowRef : Bool
  path : String
  realpath : String
  hostProps : List (String × String)
  deriving Repr, DecidableEq

/-- `OmniElement(element)`: re-wrap around the same widget and the same `path`;
only the Python type changes (the result is an `OmniElement`, never a
`WindowRef`). -/
def omniWrap (e : UIElement) : UIElement :=
  { e with isWindowRef := false }

/-- `OmniElement.get_properties`: the dictionary of widget attributes, which
includes the `path` and `real_path` entries alongside the host-derived ones. -/
def get_properties (e : UIElement) : List (String × String) :=
  e.hostProps ++ [("path", e.path), ("real_path", e.realpath)]

/-- The loop condition of `ElementCache.add_element`: for a `WindowRef` compare
`path`, otherwise compare `realpath`. -/
def dedupHit (element cached : UIElement) : Bool :=
  if element.isWindowRef then element.path == cached.path
  else element.realpath == cached.realpath

/-- Propositional form of `dedupHit`. -/
def matchesKey (element cached : UIElement) : Prop :=
  if element.isWindowRef then cached.path = element.path
  else cached.realpath = element.realpath

/-- `ElementCache`: the state is the single dictionary `element_map`. -/
structure ElementCache where
  element_map : List (String × UIElement)
  deriving Repr, DecidableEq

/-- The freshly constructed cache (`ElementCache.__init__`). -/
def emptyCache : ElementCache := ⟨[]⟩

/-- Python `identifier in d`. -/
def containsKeyB (m : List (String × UIElement)) (k : String) : Bool :=
  m.any (fun p => p.1 == k)

/-- Python `d[identifier]` read (first entry with the key, which is the unique
one for a genuine dict). -/
def lookupKey (m : List (String × UIElement)) (k : String) : Option UIElement :=
  (m.find? (fun p => p.1 == k)).map Prod.snd

/-- Python `d[k] = v`: overwrite in place when `k` is present, append
otherwise. -/
def dictInsert (m : List (String × UIElement)) (k : String) (v : UIElement) :
    List (String × UIElement) :=
  if containsKeyB m k then
    m.map (fun p => if p.1 == k then (k, v) else p)
  else
    m ++ [(k, v)]

/-- `ElementCache.add_element`.  With `exists_check` the dictionary is scanned
in iteration order and the first entry whose `path` (for a `WindowRef`
argument) or `realpath` (otherwise) coincides is returned; only when no entry
matches is the fresh identifier bound to `OmniElement(element)`.  The
identifier produced by `str(uuid.uuid4())` is the argument `freshId`. -/
def add_element (c : ElementCache) (element : UIElement) (freshId : String)
    (exists_check : Bool := true) : String × ElementCache :=
  if exists_check then
    match c.element_map.find? (fun p => dedupHit element p.2) with
    | some p => (p.1, c)
    | none => (freshId, ⟨dictInsert c.element_map freshId (omniWrap element)⟩)
  else
    (freshId, ⟨dictInsert c.element_map freshId (omniWrap element)⟩)

/-- `ElementCache.get_map`. -/
def get_map (c : ElementCache) : List (String × UIElement) :=
  c.element_map

/-- `ElementCache.reset_map` (`self.element_map.clear()`). -/
def reset_map (_c : ElementCache) : ElementCache :=
  ⟨[]⟩

/-- The Python exceptions relevant here. -/
inductive PyError where
  | keyError
  deriving Repr, DecidableEq

/-- `ElementCache.get_cached_element`: return the stored element, or raise
`KeyError` when the identifier is not a key. -/
def get_cached_element (c : ElementCache) (identifier : String) :
    Except PyError UIElement :=
  match lookupKey c.element_map identifier with
  | some e => Except.ok e
  | none => Except.error PyError.keyError

/-- A chain of `add_element` calls with `exists_check=True` (the reachable
cache states when every insertion goes through the dedup lookup); each pair
carries the element and the uuid drawn for that call. -/
def runAdds : ElementCache → List (UIElement × String) → ElementCache
  | c, [] => c
  | c, (e, fid) :: rest => runAdds (add_element c e fid true).2 rest

/-! ## Endpoints

Each endpoint is a function from the cache state (and the data the host
application supplies) to an HTTP outcome paired with the cache state after the
request: `Except n r` is a response raised as `HTTPException(status_code = n)`
or returned with the declared success status.  Host searches
(`ui_test.find_all` and `root_widget.find_all(locator)`) are inputs:
`globalFind` is the list the global search yields and `rootFind` maps a root
widget to the list its scoped search yields. -/

/-- The response model `FindElementResponse`. -/
structure FindElementResponse where
  element_id : Option String
  message : String
  properties : Option (List (String × String))
  deriving Repr, DecidableEq

/-- The response model `FindElementsResponse`. -/
structure FindElementsResponse where
  elements : List FindElementResponse
  count : Nat
  deriving Repr, DecidableEq

/-- Shared root resolution of `find_element` / `find_elements`:
`if request.root_widget_id:` is Python truthiness, so `None` and the empty
string both fall through to the global search; a truthy identifier is looked
up in the cache and `KeyError` becomes HTTP 404. -/
def resolveRoot (c : ElementCache) (root_widget_id : Option String) :
    Except Nat (Option UIElement) :=
  match root_widget_id with
  | none => Except.ok none
  | some s =>
    if s == "" then Except.ok none
    else
      match get_cached_element c s with
      | Except.ok root => Except.ok (some root)
      | Except.error _ => Except.error 404

/-- The element list the request searches once the root is resolved. -/
def searchTarget (globalFind : List UIElement) (rootFind : UIElement → List UIElement) :
    Option UIElement → List UIElement
  | some root => rootFind root
  | none => globalFind

/-- The success message of `find_element` (mentions `root_widget.realpath`
when a root was used). -/
def findElementMessage (locator identifier : String) : Option UIElement → String
  | some root =>
    "Element with locator " ++ locator ++ " and root widget " ++ root.realpath ++
      " found and cached with ID " ++ identifier
  | none =>
    "Element with locator " ++ locator ++ " found and cached with ID " ++ identifier

/-- Endpoint `find_element` (`query.py`).  `freshId` is the uuid that
`add_element` would draw.  The trailing `get_cached_element` of the source is
kept verbatim: were it ever to raise, the framework would answer 500. -/
def find_element (c : ElementCache) (locator : String) (root_widget_id : Option String)
    (globalFind : List UIElement) (rootFind : UIElement → List UIElement)
    (freshId : String) : Except Nat FindElementResponse × ElementCache :=
  match resolveRoot c root_widget_id with
  | Except.error n => (Except.error n, c)
  | Except.ok rootOpt =>
    match searchTarget globalFind rootFind rootOpt with
    | [] => (Except.error 404, c)
    | e :: _ =>
      match add_element c e freshId true with
      | (identifier, c2) =>
        match get_cached_element c2 identifier with
        | Except.ok v =>
          (Except.ok ⟨some identifier, findElementMessage locator identifier rootOpt,
            some (get_properties v)⟩, c2)
        | Except.error _ => (Except.error 500, c2)

/-- The `exists_check` chosen by `find_elements`:
`True` exactly when fewer than 50 elements matched. -/
def exists_check_flag (element_list : List UIElement) : Bool :=
  if element_list.length < 50 then true else false

/-- The per-element message of `find_elements` (mentions `root_widget.path`
when a root was used). -/
def findElementsMessage (locator identifier : String) : Option String → String
  | some rootPath =>
    "Element with locator " ++ locator ++ " and root widget " ++ rootPath ++
      " found and cached with ID " ++ identifier
  | none =>
    "Element with locator " ++ locator ++ " found and cached with ID " ++ identifier

/-- The caching loop of `find_elements`: each matched element is passed to
`add_element` with the chosen flag (with its own uuid draw), and a response is
built, with properties looked up through the cache only when
`request.get_properties` holds. -/
def findElementsLoop (locator : String) (rootPathDesc : Option String)
    (getProps : Bool) (exists_check : Bool) :
    ElementCache → List (UIElement × String) →
      Except Nat (List FindElementResponse) × ElementCache
  | c, [] => (Except.ok [], c)
  | c, (e, fid) :: rest =>
    match add_element c e fid exists_check with
    | (identifier, c2) =>
      if getProps then
        match get_cached_element c2 identifier with
        | Except.error _ => (Except.error 500, c2)
        | Except.ok v =>
          match findElementsLoop locator rootPathDesc getProps exists_check c2 rest with
          | (Except.error n, c3) => (Except.error n, c3)
          | (Except.ok rs, c3) =>
            (Except.ok (⟨some identifier,
              findElementsMessage locator identifier rootPathDesc,
              some (get_properties v)⟩ :: rs), c3)
      else
        match findElementsLoop locator rootPathDesc getProps exists_check c2 rest with
        | (Except.error n, c3) => (Except.error n, c3)
        | (Except.ok rs, c3) =>
          (Except.ok (⟨some identifier,
            findElementsMessage locator identifier rootPathDesc, none⟩ :: rs), c3)

/-- Endpoint `find_elements` (`query.py`).  `ids` supplies one uuid draw per
matched element.  The emptiness check of the source sits after the caching
loop; its message strings use `root_widget.path` (unlike `find_element`). -/
def find_elements (c : ElementCache) (locator : String) (root_widget_id : Option String)
    (getProps : Bool) (globalFind : List UIElement)
    (rootFind : UIElement → List UIElement) (ids : List String) :
    Except Nat FindElementsResponse × ElementCache :=
  match resolveRoot c root_widget_id with
  | Except.error n => (Except.error n, c)
  | Except.ok rootOpt =>
    let elts := searchTarget globalFind rootFind rootOpt
    match findElementsLoop locator (rootOpt.map (fun r => r.path)) getProps
        (exists_check_flag elts) c (elts.zip ids) with
    | (Except.error n, c2) => (Except.error n, c2)
    | (Except.ok rs, c2) =>
      if elts.isEmpty then (Except.error 404, c2)
      else (Except.ok ⟨rs, rs.length⟩, c2)

/-- Endpoint `widget_properties` (`query.py`): any exception from the cache
lookup (in particular the `KeyError` of a missing identifier) becomes 404. -/
def widget_properties (c : ElementCache) (element_id : String) :
    Except Nat FindElementResponse × ElementCache :=
  match get_cached_element c element_id with
  | Except.ok v =>
    (Except.ok ⟨some element_id, "Successfully fetched element properties",
      some (get_properties v)⟩, c)
  | Except.error _ => (Except.error 404, c)

/-- Endpoint `send_keys_to_element` (`keyboard.py`): a cache miss raises
`KeyError`, caught and turned into 404; otherwise the host processes
`element.input(text)` and the endpoint compares `element.text` — supplied here
as `textAfterInput` — against the requested text, answering 500 when the
validation fails. -/
def send_keys_to_element (c : ElementCache) (element_id text textAfterInput : String) :
    Except Nat String × ElementCache :=
  match get_cached_element c element_id with
  | Except.error _ => (Except.error 404, c)
  | Except.ok _ =>
    if textAfterInput == text then
      (Except.ok ("Keys " ++ text ++ " sent to Element with Identifier " ++
        element_id ++ " and action validation passed."), c)
    else
      (Except.error 500, c)

/-- Endpoint `reset_widget_cache` (`widget.py`): reset, then answer 500 if the
map is still truthy (non-empty), success otherwise. -/
def reset_widget_cache (c : ElementCache) : Except Nat String × ElementCache :=
  let c2 := reset_map c
  if (get_map c2).isEmpty then
    (Except.ok "Server widget cache has been successfully reset.", c2)
  else
    (Except.error 500, c2)

/-! ## Analysis vocabulary

Derived notions used to state the claims: when the root lookup of a query
endpoint fails, which element list the request ends up searching, and the
cache evolution performed by the `find_elements` loop. -/

/-- The root lookup of `find_element` / `find_elements` fails: a truthy
`root_widget_id` was supplied and it is not a key of the cache. -/
def rootMissing (c : ElementCache) (root_widget_id : Option String) : Prop :=
  ∃ s, root_widget_id = some s ∧ s ≠ "" ∧ lookupKey c.element_map s = none

/-- The element list the request searches when the root lookup does not fail:
the scoped search below the cached root widget for a truthy `root_widget_id`,
the global search otherwise. -/
def searchedElements (c : ElementCache) (root_widget_id : Option String)
    (globalFind : List UIElement) (rootFind : UIElement → List UIElement) :
    List UIElement :=
  match root_widget_id with
  | none => globalFind
  | some s =>
    if s == "" then globalFind
    else
      match lookupKey c.element_map s with
      | some root => rootFind root
      | none => []

/-- The cache after a sequence of `add_element` calls with a fixed flag (the
cache effect of the `find_elements` loop). -/
def addAllCache (exists_check : Bool) : ElementCache → List (UIElement × String) → ElementCache
  | c, [] => c
  | c, (e, fid) :: rest => addAllCache exists_check (add_element c e fid exists_check).2 rest

/-! ## Dictionary lemmas -/

theorem lookupKey_eq_none_iff (m : List (String × UIElement)) (k : String) :
    lookupKey m k = none ↔ ∀ p ∈ m, p.1 ≠ k := by
  simp [lookupKey, List.find?_eq_none]

theorem containsKeyB_eq_false_iff (m : List (String × UIElement)) (k : String) :
    containsKeyB m k = false ↔ ∀ p ∈ m, p.1 ≠ k := by
  simp [containsKeyB]

theorem lookupKey_append_single (m : List (String × UIElement)) (k : String)
    (v : UIElement) (h : ∀ p ∈ m, p.1 ≠ k) :
    lookupKey (m ++ [(k, v)]) k = some v := by
  induction m with
  | nil => simp [lookupKey, List.find?]
  | cons q t ih =>
    have hq : (q.1 == k) = false := by
      simp only [beq_eq_false_iff_ne]
      exact h q (List.mem_cons_self q t)
    simp only [List.cons_append, lookupKey, List.find?, hq]
    exact ih (fun p hp => h p (List.mem_cons_of_mem q hp))

theorem lookupKey_map_replace (m : List (String × UIElement)) (k : String)
    (v : UIElement) (h : containsKeyB m k = true) :
    lookupKey (m.map (fun p => if p.1 == k then (k, v) else p)) k = some v := by
  induction m with
  | nil => simp [containsKeyB] at h
  | cons q t ih =>
    by_cases hq : (q.1 == k) = true
    · simp [lookupKey, List.find?, hq]
    · have hq' : (q.1 == k) = false := by simpa using hq
      have ht : containsKeyB t k = true := by
        simpa [containsKeyB, hq'] using h
      simpa [lookupKey, List.find?, hq'] using ih ht

theorem lookupKey_dictInsert_self (m : List (String × UIElement)) (k : String)
    (v : UIElement) : lookupKey (dictInsert m k v) k = some v := by
  by_cases h : containsKeyB m k = true
  · simp only [dictInsert, h, if_true]
    exact lookupKey_map_replace m k v h
  · have h' : containsKeyB m k = false := by simpa using h
    simp only [dictInsert, h', Bool.false_eq_true, if_false]
    exact lookupKey_append_single m k v ((containsKeyB_eq_false_iff m k).mp h')

theorem lookupKey_isSome_of_mem {m : List (String × UIElement)}
    {p : String × UIElement} (hp : p ∈ m) : ∃ v, lookupKey m p.1 = some v := by
  have hs : (m.find? (fun q => q.1 == p.1)).isSome := by
    rw [List.find?_isSome]
    exact ⟨p, hp, by simp⟩
  obtain ⟨q, hq⟩ := Option.isSome_iff_exists.mp hs
  exact ⟨q.2, by simp [lookupKey, hq]⟩

theorem lookupKey_of_mem_nodup {m : List (String × UIElement)}
    {p : String × UIElement} (hk : (m.map Prod.fst).Nodup) (hp : p ∈ m) :
    lookupKey m p.1 = some p.2 := by
  induction m with
  | nil => cases hp
  | cons q t ih =>
    rcases List.mem_cons.mp hp with hpq | hpt
    · subst hpq
      simp [lookupKey, List.find?]
    · have hk' : q.1 ∉ t.map Prod.fst ∧ (t.map Prod.fst).Nodup := by
        rw [List.map_cons] at hk
        exact List.nodup_cons.mp hk
      by_cases hq : (q.1 == p.1) = true
      · exfalso
        have : p.1 ∈ t.map Prod.fst := List.mem_map_of_mem Prod.fst hpt
        have hqp : q.1 = p.1 := by simpa using hq
        exact hk'.1 (hqp ▸ this)
      · have hq' : (q.1 == p.1) = false := by simpa using hq
        simpa [lookupKey, List.find?, hq'] using ih hk'.2 hpt

/-! ## Basic facts about the dedup test -/

theorem dedupHit_iff (e v : UIElement) : dedupHit e v = true ↔ matchesKey e v := by
  unfold dedupHit matchesKey
  by_cases h : e.isWindowRef = true
  · rw [if_pos h, if_pos h, beq_iff_eq]
    exact eq_comm
  · rw [if_neg h, if_neg h, beq_iff_eq]
    exact eq_comm

instance (e v : UIElement) : Decidable (matchesKey e v) :=
  decidable_of_iff (dedupHit e v = true) (dedupHit_iff e v)

theorem dedupHit_omniWrap_self (e : UIElement) : dedupHit e (omniWrap e) = true := by
  by_cases h : e.isWindowRef = true <;> simp_all [dedupHit, omniWrap]

theorem find?_dedup_append_single (m : List (String × UIElement)) (k : String)
    (e : UIElement) (hnone : ∀ p ∈ m, dedupHit e p.2 = false) :
    (m ++ [(k, omniWrap e)]).find? (fun p => dedupHit e p.2) = some (k, omniWrap e) := by
  induction m with
  | nil => simp [List.find?, dedupHit_omniWrap_self]
  | cons q t ih =>
    have hq := hnone q (List.mem_cons_self q t)
    simp only [List.cons_append, List.find?, hq]
    exact ih (fun p hp => hnone p (List.mem_cons_of_mem q hp))

theorem find?_dedup_map_replace (m : List (String × UIElement)) (k : String)
    (e : UIElement) (hnone : ∀ p ∈ m, dedupHit e p.2 = false)
    (h : containsKeyB m k = true) :
    ((m.map (fun p => if p.1 == k then (k, omniWrap e) else p)).find?
      (fun p => dedupHit e p.2)) = some (k, omniWrap e) := by
  induction m with
  | nil => simp [containsKeyB] at h
  | cons q t ih =>
    by_cases hq : (q.1 == k) = true
    · simp [List.find?, hq, dedupHit_omniWrap_self]
    · have hq' : (q.1 == k) = false := by simpa using hq
      have ht : containsKeyB t k = true := by
        simpa [containsKeyB, hq'] using h
      have hqd := hnone q (List.mem_cons_self q t)
      simpa [List.find?, hq', hqd] using
        ih (fun p hp => hnone p (List.mem_cons_of_mem q hp)) ht

theorem find?_dedup_dictInsert (m : List (String × UIElement)) (k : String)
    (e : UIElement) (hnone : ∀ p ∈ m, dedupHit e p.2 = false) :
    ((dictInsert m k (omniWrap e)).find? (fun p => dedupHit e p.2)) =
      some (k, omniWrap e) := by
  by_cases h : containsKeyB m k = true
  · simp only [dictInsert, h, if_true]
    exact find?_dedup_map_replace m k e hnone h
  · have h' : containsKeyB m k = false := by simpa using h
    simp only [dictInsert, h', Bool.false_eq_true, if_false]
    exact find?_dedup_append_single m k e hnone

/-- The identifier `add_element` returns is always a key of the resulting map
(for any flag), so the immediate re-lookup the endpoints perform succeeds. -/
theorem add_element_lookup_isSome (c : ElementCache) (e : UIElement)
    (freshId : String) (ec : Bool) :
    ∃ v, get_cached_element (add_element c e freshId ec).2
      (add_element c e freshId ec).1 = Except.ok v := by
  by_cases hec : ec = true
  · subst hec
    rcases hfind : c.element_map.find? (fun p => dedupHit e p.2) with _ | p
    · refine ⟨omniWrap e, ?_⟩
      simp [add_element, hfind, get_cached_element, lookupKey_dictInsert_self]
    · have hmem : p ∈ c.element_map := List.mem_of_find?_eq_some hfind
      obtain ⟨v, hv⟩ := lookupKey_isSome_of_mem hmem
      exact ⟨v, by simp [add_element, hfind, get_cached_element, hv]⟩
  · have hec' : ec = false := by simpa using hec
    subst hec'
    refine ⟨omniWrap e, ?_⟩
    simp [add_element, get_cached_element, lookupKey_dictInsert_self]

/-! ## Endpoint analysis lemmas -/

theorem rootMissing_none (c : ElementCache) : ¬ rootMissing c none := by
  rintro ⟨s, h, -, -⟩
  cases h

theorem resolveRoot_error_of_missing (c : ElementCache) (rid : Option String)
    (h : rootMissing c rid) : resolveRoot c rid = Except.error 404 := by
  obtain ⟨s, rfl, hne, hl⟩ := h
  have hsb : (s == "") = false := by simpa using hne
  simp [resolveRoot, hsb, get_cached_element, hl]

theorem resolveRoot_ok_target (c : ElementCache) (rid : Option String)
    (globalFind : List UIElement) (rootFind : UIElement → List UIElement)
    (hnm : ¬ rootMissing c rid) :
    ∃ ro, resolveRoot c rid = Except.ok ro ∧
      searchTarget globalFind rootFind ro =
        searchedElements c rid globalFind rootFind := by
  rcases rid with _ | s
  · exact ⟨none, rfl, rfl⟩
  · by_cases hs : s = ""
    · subst hs
      exact ⟨none, by simp [resolveRoot], by simp [searchTarget, searchedElements]⟩
    · have hsb : (s == "") = false := by simpa using hs
      rcases hl : lookupKey c.element_map s with _ | root
      · exact absurd ⟨s, rfl, hs, hl⟩ hnm
      · refine ⟨some root, ?_, ?_⟩
        · simp [resolveRoot, hsb, get_cached_element, hl]
        · simp [searchTarget, searchedElements, hsb, hl]

/-- Complete case analysis of `find_element`: a missing truthy root gives 404
and no cache change; an empty search result gives 404 and no cache change; a
non-empty search result caches the head element, re-reads it (successfully)
and answers with its identifier and properties. -/
theorem find_element_spec (c : ElementCache) (locator : String) (rid : Option String)
    (globalFind : List UIElement) (rootFind : UIElement → List UIElement)
    (freshId : String) :
    (rootMissing c rid →
      find_element c locator rid globalFind rootFind freshId = (Except.error 404, c)) ∧
    (¬ rootMissing c rid → searchedElements c rid globalFind rootFind = [] →
      find_element c locator rid globalFind rootFind freshId = (Except.error 404, c)) ∧
    (∀ e rest, ¬ rootMissing c rid →
      searchedElements c rid globalFind rootFind = e :: rest →
      ∃ v msg,
        get_cached_element (add_element c e freshId true).2
          (add_element c e freshId true).1 = Except.ok v ∧
        find_element c locator rid globalFind rootFind freshId =
          (Except.ok ⟨some (add_element c e freshId true).1, msg,
            some (get_properties v)⟩, (add_element c e freshId true).2)) := by
  refine ⟨?_, ?_, ?_⟩
  · intro h
    have hres := resolveRoot_error_of_missing c rid h
    simp [find_element, hres]
  · intro hnm hempty
    obtain ⟨ro, hres, hst⟩ := resolveRoot_ok_target c rid globalFind rootFind hnm
    simp [find_element, hres, hst.trans hempty]
  · intro e rest hnm hcons
    obtain ⟨ro, hres, hst⟩ := resolveRoot_ok_target c rid globalFind rootFind hnm
    rcases hadd : add_element c e freshId true with ⟨identifier, c2⟩
    obtain ⟨v, hv⟩ := add_element_lookup_isSome c e freshId true
    rw [hadd] at hv
    refine ⟨v, findElementMessage locator identifier ro, hv, ?_⟩
    simp [find_element, hres, hst.trans hcons, hadd, hv]

/-- The caching loop of `find_elements` never takes its 500 branch: it always
returns a response list alongside the cache evolved by the `add_element`
calls. -/
theorem findElementsLoop_ok (locator : String) (rp : Option String) (gp ec : Bool)
    (l : List (UIElement × String)) : ∀ c : ElementCache,
    ∃ rs, findElementsLoop locator rp gp ec c l =
      (Except.ok rs, addAllCache ec c l) := by
  induction l with
  | nil => intro c; exact ⟨[], rfl⟩
  | cons hd rest ih =>
    intro c
    rcases hd with ⟨e, fid⟩
    rcases hadd : add_element c e fid ec with ⟨identifier, c2⟩
    obtain ⟨v, hv⟩ := add_element_lookup_isSome c e fid ec
    rw [hadd] at hv
    obtain ⟨rs, hrs⟩ := ih c2
    have hcache : addAllCache ec c ((e, fid) :: rest) = addAllCache ec c2 rest := by
      simp [addAllCache, hadd]
    by_cases hgp : gp = true
    · subst hgp
      refine ⟨⟨some identifier, findElementsMessage locator identifier rp,
        some (get_properties v)⟩ :: rs, ?_⟩
      rw [hcache]
      simp [findElementsLoop, hadd, hv, hrs]
    · have hgp0 : gp = false := by simpa using hgp
      subst hgp0
      refine ⟨⟨some identifier, findElementsMessage locator identifier rp,
        none⟩ :: rs, ?_⟩
      rw [hcache]
      simp [findElementsLoop, hadd, hrs]

/-- With the existence check off and pairwise-distinct fresh identifiers,
every element of the list is appended: the map grows by the length of the
list. -/
theorem addAllCache_false_length (elts : List UIElement) : ∀ (ids : List String)
    (c : ElementCache), ids.Nodup →
    (∀ i ∈ ids, lookupKey c.element_map i = none) → ids.length = elts.length →
    (addAllCache false c (elts.zip ids)).element_map.length =
      c.element_map.length + elts.length := by
  induction elts with
  | nil => intro ids c _ _ _; simp [addAllCache]
  | cons e et ih =>
    intro ids c hnd hfresh hlen
    rcases ids with _ | ⟨i, it⟩
    · simp at hlen
    · have hfi : lookupKey c.element_map i = none := hfresh i (List.mem_cons_self i it)
      have hcb : containsKeyB c.element_map i = false :=
        (containsKeyB_eq_false_iff _ _).mpr ((lookupKey_eq_none_iff _ _).mp hfi)
      have hstep : (add_element c e i false).2.element_map =
          c.element_map ++ [(i, omniWrap e)] := by
        simp [add_element, dictInsert, hcb]
      have hnd' := List.nodup_cons.mp hnd
      have hfresh' : ∀ j ∈ it,
          lookupKey (add_element c e i false).2.element_map j = none := by
        intro j hj
        rw [hstep, lookupKey_eq_none_iff]
        intro p hp
        rcases List.mem_append.mp hp with h1 | h2
        · exact (lookupKey_eq_none_iff _ _).mp
            (hfresh j (List.mem_cons_of_mem i hj)) p h1
        · have hp2 : p = (i, omniWrap e) := by simpa using h2
          subst hp2
          intro hij
          have hij' : i = j := hij
          exact hnd'.1 (hij' ▸ hj)
      have hstepc : addAllCache false c ((e :: et).zip (i :: it)) =
          addAllCache false (add_element c e i false).2 (et.zip it) := rfl
      rw [hstepc, ih it (add_element c e i false).2 hnd'.2 hfresh' (by simpa using hlen),
        hstep]
      simp [List.length_append]
      omega

/-- With the existence check on, a run over elements that all match an entry
already cached leaves the cache exactly as it was. -/
theorem addAllCache_true_of_all_match (elts : List UIElement) : ∀ (ids : List String)
    (c : ElementCache), (∀ e ∈ elts, ∃ p ∈ c.element_map, matchesKey e p.2) →
    addAllCache true c (elts.zip ids) = c := by
  induction elts with
  | nil => intro ids c _; cases ids <;> simp [addAllCache]
  | cons e et ih =>
    intro ids c hall
    rcases ids with _ | ⟨i, it⟩
    · simp [addAllCache]
    · obtain ⟨p, hp, hm⟩ := hall e (List.mem_cons_self e et)
      have hs : (c.element_map.find? (fun q => dedupHit e q.2)).isSome := by
        rw [List.find?_isSome]
        exact ⟨p, hp, (dedupHit_iff e p.2).mpr hm⟩
      obtain ⟨q, hq⟩ := Option.isSome_iff_exists.mp hs
      have hstep : add_element c e i true = (q.1, c) := by
        simp [add_element, hq]
      have hstepc : addAllCache true c ((e :: et).zip (i :: it)) =
          addAllCache true (add_element c e i true).2 (et.zip it) := rfl
      rw [hstepc, hstep]
      exact ih it c (fun x hx => hall x (List.mem_cons_of_mem e hx))

/-! ## The dedup invariant of reachable caches -/

/-- The invariant maintained by dedup-checked insertions: keys are pairwise
distinct, and no two entries agree on both `path` and `realpath`. -/
def cacheInv (m : List (String × UIElement)) : Prop :=
  (m.map Prod.fst).Nodup ∧
  m.Pairwise (fun p q => ¬ (p.2.path = q.2.path ∧ p.2.realpath = q.2.realpath))

theorem not_both_eq_of_dedup_false {e v : UIElement}
    (h : dedupHit e v = false) :
    ¬ (v.path = (omniWrap e).path ∧ v.realpath = (omniWrap e).realpath) := by
  rintro ⟨h1, h2⟩
  unfold dedupHit at h
  by_cases hw : e.isWindowRef = true
  · rw [if_pos hw] at h
    have hne : ¬ e.path = v.path := by simpa using h
    exact hne h1.symm
  · rw [if_neg hw] at h
    have hne : ¬ e.realpath = v.realpath := by simpa using h
    exact hne h2.symm

theorem cacheInv_dictInsert {m : List (String × UIElement)} {k : String}
    {e : UIElement} (hm : cacheInv m)
    (hnone : ∀ p ∈ m, dedupHit e p.2 = false) :
    cacheInv (dictInsert m k (omniWrap e)) := by
  by_cases hc : containsKeyB m k = true
  · have hkeys : (m.map (fun p => if p.1 == k then (k, omniWrap e) else p)).map
        Prod.fst = m.map Prod.fst := by
      rw [List.map_map]
      apply List.map_congr_left
      intro p hp
      by_cases hpk : (p.1 == k) = true
      · have hp1 : p.1 = k := by simpa using hpk
        simp [Function.comp, hpk, hp1]
      · have hpk' : (p.1 == k) = false := by simpa using hpk
        simp [Function.comp, hpk']
    constructor
    · simp only [dictInsert, hc, if_true]
      rw [hkeys]
      exact hm.1
    · simp only [dictInsert, hc, if_true]
      rw [List.pairwise_map]
      apply List.Pairwise.imp_of_mem ?_ hm.2
      intro a b ha hb hR
      dsimp only
      by_cases hak : (a.1 == k) = true <;> by_cases hbk : (b.1 == k) = true
      · have hab : a = b := List.inj_on_of_nodup_map hm.1 ha hb (by
          have h1 : a.1 = k := by simpa using hak
          have h2 : b.1 = k := by simpa using hbk
          rw [h1, h2])
        subst hab
        exact absurd ⟨rfl, rfl⟩ hR
      · rw [if_pos hak, if_neg hbk]
        rintro ⟨h1, h2⟩
        exact not_both_eq_of_dedup_false (hnone b hb) ⟨h1.symm, h2.symm⟩
      · rw [if_neg hak, if_pos hbk]
        exact not_both_eq_of_dedup_false (hnone a ha)
      · rw [if_neg hak, if_neg hbk]
        exact hR
  · have hc' : containsKeyB m k = false := by simpa using hc
    have hknotin : k ∉ m.map Prod.fst := by
      intro hk
      obtain ⟨p, hp, hpk⟩ := List.mem_map.mp hk
      exact (containsKeyB_eq_false_iff m k).mp hc' p hp hpk
    constructor
    · simp only [dictInsert, hc', Bool.false_eq_true, if_false]
      rw [List.map_append, List.nodup_append]
      refine ⟨hm.1, by simp, ?_⟩
      intro a ha hb
      have hak : a = k := by simpa using hb
      exact hknotin (hak ▸ ha)
    · simp only [dictInsert, hc', Bool.false_eq_true, if_false]
      rw [List.pairwise_append]
      refine ⟨hm.2, by simp, ?_⟩
      intro a ha b hb
      have hbe : b = (k, omniWrap e) := by simpa using hb
      subst hbe
      exact not_both_eq_of_dedup_false (hnone a ha)

theorem cacheInv_add_element (c : ElementCache) (e : UIElement) (fid : String)
    (h : cacheInv c.element_map) :
    cacheInv (add_element c e fid true).2.element_map := by
  rcases hfind : c.element_map.find? (fun p => dedupHit e p.2) with _ | p
  · have hnone : ∀ q ∈ c.element_map, dedupHit e q.2 = false := by
      intro q hq
      simpa using List.find?_eq_none.mp hfind q hq
    simpa [add_element, hfind] using cacheInv_dictInsert h hnone
  · simpa [add_element, hfind] using h

theorem cacheInv_runAdds (ops : List (UIElement × String)) :
    ∀ c : ElementCache, cacheInv c.element_map →
      cacheInv (runAdds c ops).element_map := by
  induction ops with
  | nil => intro c h; exact h
  | cons hd rest ih =>
    intro c h
    rcases hd with ⟨e, fid⟩
    exact ih (add_element c e fid true).2 (cacheInv_add_element c e fid h)

/-! ## Concrete elements for witnesses and counterexamples -/

/-- A non-window element at widget path `A` whose realpath is `R`. -/
def cexCachedElem : UIElement := ⟨false, "A", "R", []⟩

/-- A non-window element at widget path `B` sharing realpath `R` with
`cexCachedElem` (two locators resolving to the same real widget path). -/
def cexQueryElem : UIElement := ⟨false, "B", "R", []⟩

/-- A window reference titled `W` with realpath `R1`. -/
def cexWin1 : UIElement := ⟨true, "W", "R1", []⟩

/-- A window reference titled `W` with realpath `R2`. -/
def cexWin2 : UIElement := ⟨true, "W", "R2", []⟩

/-- A window reference whose title and realpath both read `R`, sharing its
realpath with `cexCachedElem`. -/
def cexWinSameReal : UIElement := ⟨true, "R", "R", []⟩

/-- Fifty identical matched elements, as a large `find_elements` result. -/
def w50elems : List UIElement := List.replicate 50 cexQueryElem

/-- Fifty pairwise-distinct identifiers for the fifty uuid draws. -/
def w50ids : List String := (List.range 50).map (fun n => String.append "i" (Nat.repr n))

/-! ## Claim theorems -/

/-- C2: with `exists_check=True`, `add_element` performs the dedup-by-path
lookup: when some cached entry has the same realpath as the element (same path
for a window reference), a matching entry's identifier is returned and the map
is untouched; only when no entry matches is the freshly generated identifier
bound to the (re-wrapped) element. -/
theorem add_element_dedup_lookup (c : ElementCache) (e : UIElement) (freshId : String) :
    ((∃ p ∈ c.element_map, matchesKey e p.2) →
      (add_element c e freshId true).2 = c ∧
      ∃ p ∈ c.element_map, matchesKey e p.2 ∧ (add_element c e freshId true).1 = p.1) ∧
    ((∀ p ∈ c.element_map, ¬ matchesKey e p.2) →
      (add_element c e freshId true).1 = freshId ∧
      (add_element c e freshId true).2.element_map =
        dictInsert c.element_map freshId (omniWrap e) ∧
      lookupKey (add_element c e freshId true).2.element_map freshId =
        some (omniWrap e)) := by
  constructor
  · rintro ⟨p, hp, hm⟩
    have hs : (c.element_map.find? (fun q => dedupHit e q.2)).isSome := by
      rw [List.find?_isSome]
      exact ⟨p, hp, (dedupHit_iff e p.2).mpr hm⟩
    obtain ⟨q, hq⟩ := Option.isSome_iff_exists.mp hs
    have hqm := List.mem_of_find?_eq_some hq
    have hq' := List.find?_some hq
    have hqhit : matchesKey e q.2 := (dedupHit_iff _ _).mp (by simpa using hq')
    exact ⟨by simp [add_element, hq], ⟨q, hqm, hqhit, by simp [add_element, hq]⟩⟩
  · intro h
    have hnone : c.element_map.find? (fun q => dedupHit e q.2) = none := by
      rw [List.find?_eq_none]
      exact fun q hq hc => h q hq ((dedupHit_iff _ _).mp hc)
    refine ⟨by simp [add_element, hnone], by simp [add_element, hnone], ?_⟩
    simp [add_element, hnone, lookupKey_dictInsert_self]

/-- Witness for C2: a dedup hit on a one-entry cache returns the cached
identifier and leaves the map alone; on the empty cache the fresh identifier
is bound to the element. -/
theorem add_element_dedup_lookup_witness :
    ((add_element ⟨[("k0", cexCachedElem)]⟩ cexQueryElem "n1" true).2 =
        ⟨[("k0", cexCachedElem)]⟩ ∧
      ∃ p ∈ [("k0", cexCachedElem)], matchesKey cexQueryElem p.2 ∧
        (add_element ⟨[("k0", cexCachedElem)]⟩ cexQueryElem "n1" true).1 = p.1) ∧
    ((add_element emptyCache cexQueryElem "n2" true).1 = "n2" ∧
      (add_element emptyCache cexQueryElem "n2" true).2.element_map =
        dictInsert emptyCache.element_map "n2" (omniWrap cexQueryElem) ∧
      lookupKey (add_element emptyCache cexQueryElem "n2" true).2.element_map "n2" =
        some (omniWrap cexQueryElem)) :=
  ⟨(add_element_dedup_lookup ⟨[("k0", cexCachedElem)]⟩ cexQueryElem "n1").1
      ⟨("k0", cexCachedElem), by decide, by decide⟩,
    (add_element_dedup_lookup emptyCache cexQueryElem "n2").2 (by decide)⟩

/-- C3: `get_cached_element` raises `KeyError` exactly when the identifier is
not a key of the map (and otherwise returns the stored element), and both
`widget_properties` and `send_keys_to_element` translate that miss into an
HTTP 404 answer with the cache untouched. -/
theorem get_cached_element_keyerror_404 (c : ElementCache)
    (identifier text textAfter : String) :
    (get_cached_element c identifier = Except.error PyError.keyError ↔
      ∀ p ∈ c.element_map, p.1 ≠ identifier) ∧
    (∀ v, get_cached_element c identifier = Except.ok v →
      ∃ p ∈ c.element_map, p.1 = identifier ∧ p.2 = v) ∧
    ((∀ p ∈ c.element_map, p.1 ≠ identifier) →
      widget_properties c identifier = (Except.error 404, c) ∧
      send_keys_to_element c identifier text textAfter = (Except.error 404, c)) := by
  refine ⟨⟨?_, ?_⟩, ?_, ?_⟩
  · intro h
    rcases hl : lookupKey c.element_map identifier with _ | v
    · exact (lookupKey_eq_none_iff _ _).mp hl
    · simp [get_cached_element, hl] at h
  · intro h
    have hl := (lookupKey_eq_none_iff c.element_map identifier).mpr h
    simp [get_cached_element, hl]
  · intro v hv
    rcases hf : c.element_map.find? (fun p => p.1 == identifier) with _ | q
    · simp [get_cached_element, lookupKey, hf] at hv
    · have hqv : q.2 = v := by simpa [get_cached_element, lookupKey, hf] using hv
      have hqm := List.mem_of_find?_eq_some hf
      have hqk : q.1 = identifier := by simpa using List.find?_some hf
      exact ⟨q, hqm, hqk, hqv⟩
  · intro h
    have hl := (lookupKey_eq_none_iff c.element_map identifier).mpr h
    constructor
    · simp [widget_properties, get_cached_element, hl]
    · simp [send_keys_to_element, get_cached_element, hl]

/-- Witness for C3: an identifier missing from the empty cache makes both
endpoints answer 404. -/
theorem get_cached_element_keyerror_404_witness :
    widget_properties emptyCache "x" = (Except.error 404, emptyCache) ∧
    send_keys_to_element emptyCache "x" "t" "t" = (Except.error 404, emptyCache) :=
  (get_cached_element_keyerror_404 emptyCache "x" "t" "t").2.2 (by decide)

/-- C6: when `add_element` actually inserts (flag off, or no dedup match) and
the drawn uuid is fresh, the new identifier was not previously a key, every
previous entry survives unchanged, and the map grows by exactly one entry. -/
theorem add_element_insert_frame (c : ElementCache) (e : UIElement)
    (freshId : String) (ec : Bool)
    (hfresh : lookupKey c.element_map freshId = none)
    (hins : ec = false ∨ ∀ p ∈ c.element_map, ¬ matchesKey e p.2) :
    (add_element c e freshId ec).1 = freshId ∧
    (∀ p ∈ c.element_map, p.1 ≠ freshId) ∧
    (∀ p ∈ c.element_map, p ∈ (add_element c e freshId ec).2.element_map) ∧
    (add_element c e freshId ec).2.element_map.length = c.element_map.length + 1 := by
  have hkeys : ∀ p ∈ c.element_map, p.1 ≠ freshId :=
    (lookupKey_eq_none_iff _ _).mp hfresh
  have hcontains : containsKeyB c.element_map freshId = false :=
    (containsKeyB_eq_false_iff _ _).mpr hkeys
  have hmap : (add_element c e freshId ec).1 = freshId ∧
      (add_element c e freshId ec).2.element_map =
        c.element_map ++ [(freshId, omniWrap e)] := by
    rcases hins with h0 | h1
    · subst h0
      constructor <;> simp [add_element, dictInsert, hcontains]
    · by_cases hec : ec = true
      · subst hec
        have hnone : c.element_map.find? (fun q => dedupHit e q.2) = none := by
          rw [List.find?_eq_none]
          exact fun q hq hc => h1 q hq ((dedupHit_iff _ _).mp hc)
        constructor <;> simp [add_element, hnone, dictInsert, hcontains]
      · have h0 : ec = false := by simpa using hec
        subst h0
        constructor <;> simp [add_element, dictInsert, hcontains]
  refine ⟨hmap.1, hkeys, ?_, ?_⟩
  · intro p hp
    rw [hmap.2]
    exact List.mem_append_left _ hp
  · rw [hmap.2]
    simp

/-- Witness for C6: inserting into the empty cache with the flag off grows
the map from zero to one entry. -/
theorem add_element_insert_frame_witness :
    (add_element emptyCache cexQueryElem "f1" false).1 = "f1" ∧
    (∀ p ∈ emptyCache.element_map, p.1 ≠ "f1") ∧
    (∀ p ∈ emptyCache.element_map,
      p ∈ (add_element emptyCache cexQueryElem "f1" false).2.element_map) ∧
    (add_element emptyCache cexQueryElem "f1" false).2.element_map.length =
      emptyCache.element_map.length + 1 :=
  add_element_insert_frame emptyCache cexQueryElem "f1" false (by decide) (Or.inl rfl)

/-- C7: `add_element` with `exists_check=True` is idempotent — a second
identical call returns the same identifier and leaves the map unchanged,
whatever uuid the second call draws. -/
theorem add_element_dedup_idempotent (c : ElementCache) (e : UIElement)
    (id1 id2 : String) :
    (add_element (add_element c e id1 true).2 e id2 true).1 =
      (add_element c e id1 true).1 ∧
    (add_element (add_element c e id1 true).2 e id2 true).2 =
      (add_element c e id1 true).2 := by
  rcases hfind : c.element_map.find? (fun p => dedupHit e p.2) with _ | p
  · have hnone : ∀ q ∈ c.element_map, dedupHit e q.2 = false := by
      intro q hq
      simpa using List.find?_eq_none.mp hfind q hq
    have hsecond := find?_dedup_dictInsert c.element_map id1 e hnone
    constructor <;> simp [add_element, hfind, hsecond]
  · constructor <;> simp [add_element, hfind]

/-- C9: `reset_map` unconditionally empties the cache, `get_map` then yields
the empty mapping, and `reset_widget_cache` therefore always answers with the
success message — its 500 branch is unreachable. -/
theorem reset_map_empties_cache (c : ElementCache) :
    get_map (reset_map c) = [] ∧
    reset_widget_cache c =
      (Except.ok "Server widget cache has been successfully reset.", emptyCache) :=
  ⟨rfl, rfl⟩

/-- C4: `find_element` answers 404 exactly when the truthy `root_widget_id`
is absent from the cache or the performed search matches nothing; every error
it raises is a 404 (the trailing 500 branch is unreachable); on success the
first located element is passed to the cache and the response carries the
identifier `add_element` returned, a message, and the properties of the
element cached under that identifier. -/
theorem find_element_404_exactly (c : ElementCache) (locator : String)
    (rid : Option String) (globalFind : List UIElement)
    (rootFind : UIElement → List UIElement) (freshId : String) :
    ((find_element c locator rid globalFind rootFind freshId).1 = Except.error 404 ↔
      rootMissing c rid ∨ (¬ rootMissing c rid ∧
        searchedElements c rid globalFind rootFind = [])) ∧
    (∀ n, (find_element c locator rid globalFind rootFind freshId).1 =
      Except.error n → n = 404) ∧
    (∀ resp, (find_element c locator rid globalFind rootFind freshId).1 =
        Except.ok resp →
      ∃ e rest v, searchedElements c rid globalFind rootFind = e :: rest ∧
        (find_element c locator rid globalFind rootFind freshId).2 =
          (add_element c e freshId true).2 ∧
        resp.element_id = some (add_element c e freshId true).1 ∧
        get_cached_element (add_element c e freshId true).2
          (add_element c e freshId true).1 = Except.ok v ∧
        resp.properties = some (get_properties v)) := by
  have hspec := find_element_spec c locator rid globalFind rootFind freshId
  by_cases hrm : rootMissing c rid
  · have heq := hspec.1 hrm
    refine ⟨?_, ?_, ?_⟩
    · rw [heq]
      simp [hrm]
    · intro n hn
      rw [heq] at hn
      simp at hn
      omega
    · intro resp hresp
      rw [heq] at hresp
      simp at hresp
  · rcases hse : searchedElements c rid globalFind rootFind with _ | ⟨e, rest⟩
    · have heq := hspec.2.1 hrm hse
      refine ⟨?_, ?_, ?_⟩
      · rw [heq]
        simp [hrm]
      · intro n hn
        rw [heq] at hn
        simp at hn
        omega
      · intro resp hresp
        rw [heq] at hresp
        simp at hresp
    · obtain ⟨v, msg, hv, heq⟩ := hspec.2.2 e rest hrm hse
      refine ⟨?_, ?_, ?_⟩
      · rw [heq]
        simp [hrm]
      · intro n hn
        rw [heq] at hn
        simp at hn
      · intro resp hresp
        rw [heq] at hresp
        simp at hresp
        subst hresp
        exact ⟨e, rest, v, rfl, by rw [heq], rfl, hv, rfl⟩

/-- Witness for C4: a missing truthy root on the empty cache answers 404, and
a global search that finds one element answers with its cached identifier and
properties. -/
theorem find_element_404_exactly_witness :
    (find_element emptyCache "loc" (some "x") [] (fun _ => []) "f").1 =
      Except.error 404 ∧
    ∃ e rest v,
      searchedElements emptyCache none [cexQueryElem] (fun _ => []) = e :: rest ∧
      (find_element emptyCache "loc" none [cexQueryElem] (fun _ => []) "f").2 =
        (add_element emptyCache e "f" true).2 ∧
      (⟨some "f", findElementMessage "loc" "f" none,
        some (get_properties (omniWrap cexQueryElem))⟩ : FindElementResponse).element_id =
        some (add_element emptyCache e "f" true).1 ∧
      get_cached_element (add_element emptyCache e "f" true).2
        (add_element emptyCache e "f" true).1 = Except.ok v ∧
      (⟨some "f", findElementMessage "loc" "f" none,
        some (get_properties (omniWrap cexQueryElem))⟩ : FindElementResponse).properties =
        some (get_properties v) :=
  ⟨(find_element_404_exactly emptyCache "loc" (some "x") [] (fun _ => []) "f").1.mpr
      (Or.inl ⟨"x", rfl, by decide, rfl⟩),
    (find_element_404_exactly emptyCache "loc" none [cexQueryElem]
      (fun _ => []) "f").2.2 _ rfl⟩

/-- C5: whenever `find_element`, `find_elements`, or `widget_properties`
answers 404, the cache is exactly as it was before the request. -/
theorem error_404_preserves_cache (c : ElementCache) (locator : String)
    (rid : Option String) (getProps : Bool) (globalFind : List UIElement)
    (rootFind : UIElement → List UIElement) (freshId : String)
    (ids : List String) (element_id : String) :
    ((find_element c locator rid globalFind rootFind freshId).1 =
        Except.error 404 →
      (find_element c locator rid globalFind rootFind freshId).2 = c) ∧
    ((find_elements c locator rid getProps globalFind rootFind ids).1 =
        Except.error 404 →
      (find_elements c locator rid getProps globalFind rootFind ids).2 = c) ∧
    ((widget_properties c element_id).1 = Except.error 404 →
      (widget_properties c element_id).2 = c) := by
  refine ⟨?_, ?_, ?_⟩
  · intro h404
    have hspec := find_element_spec c locator rid globalFind rootFind freshId
    by_cases hrm : rootMissing c rid
    · rw [hspec.1 hrm]
    · rcases hse : searchedElements c rid globalFind rootFind with _ | ⟨e, rest⟩
      · rw [hspec.2.1 hrm hse]
      · obtain ⟨v, msg, hv, heq⟩ := hspec.2.2 e rest hrm hse
        rw [heq] at h404
        simp at h404
  · intro h404
    rcases hres : resolveRoot c rid with n | ro
    · simp [find_elements, hres]
    · rcases hse : searchTarget globalFind rootFind ro with _ | ⟨e, rest⟩
      · simp [find_elements, hres, hse, findElementsLoop, addAllCache]
      · obtain ⟨rs, hrs⟩ := findElementsLoop_ok locator (ro.map fun r => r.path)
          getProps (exists_check_flag (e :: rest)) ((e :: rest).zip ids) c
        rw [find_elements] at h404
        simp [hres, hse, hrs] at h404
  · intro h404
    rcases hg : get_cached_element c element_id with x | v <;>
      simp [widget_properties, hg]

/-- Witness for C5: with a truthy root identifier missing from the empty
cache, all three endpoints answer 404 and return the cache unchanged. -/
theorem error_404_preserves_cache_witness :
    (find_element emptyCache "loc" (some "x") [] (fun _ => []) "f").2 =
      emptyCache ∧
    (find_elements emptyCache "loc" (some "x") true [] (fun _ => []) []).2 =
      emptyCache ∧
    (widget_properties emptyCache "x").2 = emptyCache :=
  ⟨(error_404_preserves_cache emptyCache "loc" (some "x") true [] (fun _ => [])
      "f" [] "x").1 rfl,
    (error_404_preserves_cache emptyCache "loc" (some "x") true [] (fun _ => [])
      "f" [] "x").2.1 rfl,
    (error_404_preserves_cache emptyCache "loc" (some "x") true [] (fun _ => [])
      "f" [] "x").2.2 rfl⟩

/-- C8: `find_elements` turns the dedup check on exactly when fewer than 50
elements matched; with 50 or more matches every element is cached under its
own fresh identifier (the map grows by the full match count, duplicates
included), while under the threshold elements already covered by cached
entries create nothing new. -/
theorem find_elements_dedup_threshold (c : ElementCache) (locator : String)
    (getProps : Bool) (elts : List UIElement)
    (rootFind : UIElement → List UIElement) (ids : List String)
    (hlen : ids.length = elts.length) (hnodup : ids.Nodup)
    (hfresh : ∀ i ∈ ids, lookupKey c.element_map i = none) :
    (exists_check_flag elts = true ↔ elts.length < 50) ∧
    (50 ≤ elts.length →
      (find_elements c locator none getProps elts rootFind ids).2.element_map.length =
        c.element_map.length + elts.length) ∧
    (elts.length < 50 → (∀ e ∈ elts, ∃ p ∈ c.element_map, matchesKey e p.2) →
      (find_elements c locator none getProps elts rootFind ids).2 = c) := by
  refine ⟨?_, ?_, ?_⟩
  · by_cases h : elts.length < 50 <;> simp [exists_check_flag, h]
  · intro h50
    have hflag : exists_check_flag elts = false := by
      simp only [exists_check_flag, ite_eq_right_iff]
      omega
    obtain ⟨rs, hrs⟩ := findElementsLoop_ok locator none getProps false
      (elts.zip ids) c
    have hne : elts.isEmpty = false := by
      cases elts
      · simp at h50
      · simp
    have hred : find_elements c locator none getProps elts rootFind ids =
        (Except.ok ⟨rs, rs.length⟩, addAllCache false c (elts.zip ids)) := by
      simp [find_elements, resolveRoot, searchTarget, hflag, hrs, hne]
    rw [hred]
    exact addAllCache_false_length elts ids c hnodup hfresh hlen
  · intro h50 hall
    have hflag : exists_check_flag elts = true := by
      simp [exists_check_flag, h50]
    obtain ⟨rs, hrs⟩ := findElementsLoop_ok locator none getProps true
      (elts.zip ids) c
    have hcache := addAllCache_true_of_all_match elts ids c hall
    by_cases hne : elts.isEmpty <;>
      simp [find_elements, resolveRoot, searchTarget, hflag, hrs, hne, hcache]

/-- Counterexample to C1 as stated: the element yielded for the identifier
`add_element` returns need not share the widget path of the argument.  A
non-window element dedups by realpath, so a cached element at path `A` is
returned for a query element at path `B` (same realpath `R`); symmetrically a
window reference dedups by path only, so a cached window with realpath `R1` is
returned for a window with realpath `R2` (same path `W`). -/
theorem add_element_get_path_counterexample :
    (get_cached_element
        (add_element (runAdds emptyCache [(cexCachedElem, "id0")])
          cexQueryElem "id1" true).2
        (add_element (runAdds emptyCache [(cexCachedElem, "id0")])
          cexQueryElem "id1" true).1 = Except.ok cexCachedElem ∧
      cexCachedElem.path ≠ cexQueryElem.path) ∧
    (get_cached_element
        (add_element (runAdds emptyCache [(cexWin1, "idw")]) cexWin2 "id2" true).2
        (add_element (runAdds emptyCache [(cexWin1, "idw")]) cexWin2 "id2" true).1 =
          Except.ok (omniWrap cexWin1) ∧
      (omniWrap cexWin1).realpath ≠ cexWin2.realpath) :=
  ⟨⟨rfl, by decide⟩, ⟨rfl, by decide⟩⟩

/-- C1 (amended): looking up the identifier returned by `add_element` always
succeeds — never raises `KeyError` — and the element it yields agrees with the
argument on the dedup key: same path when the argument is a window reference,
same realpath otherwise. -/
theorem add_element_get_dedup_key (c : ElementCache) (e : UIElement)
    (freshId : String) (hk : (c.element_map.map Prod.fst).Nodup) :
    ∃ v, get_cached_element (add_element c e freshId true).2
        (add_element c e freshId true).1 = Except.ok v ∧
      (e.isWindowRef = true → v.path = e.path) ∧
      (e.isWindowRef = false → v.realpath = e.realpath) := by
  rcases hfind : c.element_map.find? (fun p => dedupHit e p.2) with _ | p
  · refine ⟨omniWrap e, ?_, ?_, ?_⟩
    · simp [add_element, hfind, get_cached_element, lookupKey_dictInsert_self]
    · intro _; rfl
    · intro _; rfl
  · have hmem : p ∈ c.element_map := List.mem_of_find?_eq_some hfind
    have hfind' := List.find?_some hfind
    have hm : matchesKey e p.2 := (dedupHit_iff _ _).mp (by simpa using hfind')
    have hl := lookupKey_of_mem_nodup hk hmem
    refine ⟨p.2, by simp [add_element, hfind, get_cached_element, hl], ?_, ?_⟩
    · intro hw
      unfold matchesKey at hm
      rwa [if_pos hw] at hm
    · intro hw
      unfold matchesKey at hm
      rw [if_neg] at hm
      · exact hm
      · rw [hw]; simp

/-- Witness for C1 (amended): a dedup hit on a one-entry cache yields the
cached element, which shares the query element's realpath. -/
theorem add_element_get_dedup_key_witness :
    ∃ v, get_cached_element
        (add_element ⟨[("k0", cexCachedElem)]⟩ cexQueryElem "w1" true).2
        (add_element ⟨[("k0", cexCachedElem)]⟩ cexQueryElem "w1" true).1 =
          Except.ok v ∧
      (cexQueryElem.isWindowRef = true → v.path = cexQueryElem.path) ∧
      (cexQueryElem.isWindowRef = false → v.realpath = cexQueryElem.realpath) :=
  add_element_get_dedup_key ⟨[("k0", cexCachedElem)]⟩ cexQueryElem "w1" (by decide)

/-- Witness for C8: fifty matched elements disable the dedup check and all
fifty are cached even though they all share one path; a single matched element
already covered by a cached entry leaves the one-entry cache unchanged. -/
theorem find_elements_dedup_threshold_witness :
    (50 ≤ w50elems.length ∧
      (find_elements emptyCache "loc" none true w50elems (fun _ => [])
        w50ids).2.element_map.length =
        emptyCache.element_map.length + w50elems.length) ∧
    ((List.replicate 1 cexQueryElem).length < 50 ∧
      (find_elements ⟨[("k0", cexCachedElem)]⟩ "loc" none true
        (List.replicate 1 cexQueryElem) (fun _ => []) ["j0"]).2 =
        ⟨[("k0", cexCachedElem)]⟩) :=
  ⟨⟨by decide,
    (find_elements_dedup_threshold emptyCache "loc" true w50elems (fun _ => [])
      w50ids (by decide) (by decide) (by decide)).2.1 (by decide)⟩,
   ⟨by decide,
    (find_elements_dedup_threshold ⟨[("k0", cexCachedElem)]⟩ "loc" true
      (List.replicate 1 cexQueryElem) (fun _ => []) ["j0"] (by decide) (by decide)
      (by decide)).2.2 (by decide) (by decide)⟩⟩

/-- Counterexample to C10 as stated: with only dedup-checked insertions from
the empty cache, two distinct identifiers can still map to elements with the
same realpath, because an inserted window reference is deduplicated by path
alone.  Adding a widget with realpath `R` and then a window titled `R` (path
`R`, realpath `R`) stores two entries whose realpaths both read `R`. -/
theorem cache_realpath_injective_counterexample :
    (runAdds emptyCache [(cexCachedElem, "a"), (cexWinSameReal, "b")]).element_map =
      [("a", cexCachedElem), ("b", ⟨false, "R", "R", []⟩)] ∧
    ¬ (runAdds emptyCache
        [(cexCachedElem, "a"), (cexWinSameReal, "b")]).element_map.Pairwise
        (fun p q => ¬ p.2.realpath = q.2.realpath) :=
  ⟨rfl, by decide⟩

/-- C10 (amended): in every cache state reachable from the empty cache through
`add_element` with `exists_check=True`, identifiers are pairwise distinct and
no two entries agree on both `path` and `realpath`; injectivity on the
realpath alone does not hold, since window references are deduplicated only by
path. -/
theorem runAdds_cache_invariant (ops : List (UIElement × String)) :
    ((runAdds emptyCache ops).element_map.map Prod.fst).Nodup ∧
    (runAdds emptyCache ops).element_map.Pairwise
      (fun p q => ¬ (p.2.path = q.2.path ∧ p.2.realpath = q.2.realpath)) :=
  cacheInv_runAdds ops emptyCache ⟨List.nodup_nil, List.Pairwise.nil⟩

end KitAutomation
